import Mathlib

/-!
Verification development for `comfy_annotations.py` (ComfyUI-Annotations).

The definitions below are a shallow embedding of the pieces of the source
that the claims are about:

* the type registry `register_type` with its three module-level dicts
  (`_ANNOTATION_TO_COMFYUI_TYPE`, `_SHOULD_AUTOCONVERT`, `_DEFAULT_FORCE_INPUT`),
* tensor validation (`_verify_tensor`, `tensor_types`, `_verify_tensor_type`,
  `_verify_return_type`), with torch tensors modelled as a shape list plus a
  flat list of exact rational element values and a device string,
* result normalization and the retry loop
  (`_call_function_and_verify_result`, `_all_to`),
* the wrapper's argument coercion steps (MASK 2-D promotion, list-mode
  unwrapping) from `ComfyFunc.decorator.wrapper`,
* node registration (`_create_comfy_node`) against the global registries
  `NODE_CLASS_MAPPINGS` / `NODE_DISPLAY_NAME_MAPPINGS`,
* return-type inference (`_infer_return_types_from_annotations`,
  `_get_type_str`) as far as the is-output-node computation needs it,
* the wildcard `AnyType.__ne__`.

Python dicts are modelled as association lists with insertion-order
append-or-overwrite assignment (`dictSet`); exceptions are modelled with
`Except`; assertion/exception messages are modelled as structured
constructors carrying exactly the data interpolated into the Python message.
-/

namespace ComfyAnnotations

/-- Model of a `torch.Tensor`: its shape, its element values flattened to a
list of exact rationals, and the device string it currently lives on. -/
structure STensor where
  shape : List Nat
  data : List Rat
  device : String
deriving Repr, DecidableEq

/-- Binary minimum on rationals, written with an explicit `if` so that it
evaluates by kernel reduction. -/
def rmin (a b : Rat) : Rat := if a ≤ b then a else b

/-- Binary maximum on rationals. -/
def rmax (a b : Rat) : Rat := if a ≤ b then b else a

/-- `arg.min()` for a tensor with elements `x :: xs` (torch raises on an
empty tensor, which the callers model separately). -/
def tensorMin (x : Rat) (xs : List Rat) : Rat := xs.foldl rmin x

/-- `arg.max()` for a tensor with elements `x :: xs`. -/
def tensorMax (x : Rat) (xs : List Rat) : Rat := xs.foldl rmax x

/-- A Python runtime value as far as the wrapper inspects it: a tensor, a
list, a tuple, a string, `None`, or some other scalar (modelled by `intV`). -/
inductive PyV where
  | tensor (t : STensor)
  | listV (elems : List PyV)
  | tup (elems : List PyV)
  | strV (s : String)
  | noneV
  | intV (n : Int)
deriving Repr

mutual
/-- `_all_to(device, arg)`: move a tensor to `device`, recurse into lists,
and leave every other value unchanged (tuples are not lists, so they are
left alone, exactly as in the source). -/
def allTo (device : String) : PyV → PyV
  | .tensor t => .tensor ⟨t.shape, t.data, device⟩
  | .listV elems => .listV (allToList device elems)
  | .tup elems => .tup elems
  | .strV s => .strV s
  | .noneV => .noneV
  | .intV n => .intV n

/-- Elementwise `_all_to` over a Python list. -/
def allToList (device : String) : List PyV → List PyV
  | [] => []
  | a :: rest => allTo device a :: allToList device rest
end

/-- The keyword parameters of `_verify_tensor`: `allowed_shapes`,
`allowed_dims`, `allowed_channels` (each `None` or a list). -/
structure TParams where
  allowedShapes : Option (List Nat)
  allowedDims : Option (List Nat)
  allowedChannels : Option (List Nat)
deriving Repr, DecidableEq

/-- The `assert arg.min() >= 0 and arg.max() <= 1` check that `_verify_tensor`
runs when `tensor_type == "MASK"`.  On an empty tensor `arg.min()` itself
raises in torch, modelled as an error. -/
def maskRangeCheck (t : STensor) (tensorName tensorType : String) : Except String Unit :=
  if tensorType = "MASK" then
    match t.data with
    | [] => .error (tensorName ++ ": min(): cannot compute min of an empty tensor")
    | x :: xs =>
      if 0 ≤ tensorMin x xs ∧ tensorMax x xs ≤ 1 then .ok ()
      else .error (tensorName ++ ": " ++ tensorType ++ " tensor must have values between 0 and 1")
  else .ok ()

/-- The `assert len(arg.shape) in allowed_shapes` check of `_verify_tensor`. -/
def shapesCheck (t : STensor) (tensorName tensorType : String)
    (allowedShapes : Option (List Nat)) : Except String Unit :=
  match allowedShapes with
  | none => .ok ()
  | some shapes =>
    if t.shape.length ∈ shapes then .ok ()
    else .error (tensorName ++ ": " ++ tensorType ++ " tensor must have shape in allowed_shapes")

/-- The per-axis `assert arg.shape[i] <= dim` loop of `_verify_tensor`
(`arg.shape[i]` raises IndexError when `i` is out of range). -/
def checkDims (shape : List Nat) : Nat → List Nat → Except String Unit
  | _, [] => .ok ()
  | i, d :: rest =>
    match shape.get? i with
    | none => .error "IndexError: tuple index out of range"
    | some s =>
      if s ≤ d then checkDims shape (i + 1) rest
      else .error "tensor dimension out of allowed range"

/-- The `allowed_dims` branch of `_verify_tensor`. -/
def dimsCheck (t : STensor) (allowedDims : Option (List Nat)) : Except String Unit :=
  match allowedDims with
  | none => .ok ()
  | some dims => checkDims t.shape 0 dims

/-- The `assert arg.shape[-1] in allowed_channels` branch of `_verify_tensor`
(`arg.shape[-1]` raises IndexError on a 0-dimensional tensor). -/
def channelsCheck (t : STensor) (tensorName tensorType : String)
    (allowedChannels : Option (List Nat)) : Except String Unit :=
  match allowedChannels with
  | none => .ok ()
  | some channels =>
    match t.shape.getLast? with
    | none => .error "IndexError: tuple index out of range"
    | some c =>
      if c ∈ channels then .ok ()
      else .error (tensorName ++ ": " ++ tensorType ++ " tensor must have channels in allowed_channels")

/-- The tensor branch of `_verify_tensor`: the MASK value-range assert, then
the shape, per-axis and channel asserts, in source order. -/
def checkTensor (t : STensor) (tensorName tensorType : String) (p : TParams) : Except String Unit :=
  match maskRangeCheck t tensorName tensorType with
  | .error e => .error e
  | .ok _ =>
    match shapesCheck t tensorName tensorType p.allowedShapes with
    | .error e => .error e
    | .ok _ =>
      match dimsCheck t p.allowedDims with
      | .error e => .error e
      | .ok _ => channelsCheck t tensorName tensorType p.allowedChannels

/-- `_verify_tensor(arg, tensor_name, tensor_type, **params)` with the global
`verify_tensors` toggle passed explicitly as `vt`.  For a list argument the
source's `for a in arg: return _verify_tensor(a, ...)` returns on the first
iteration and omits the `tensor_type` keyword, so only the first element is
recursed into and the recursive call gets the default `tensor_type=""`;
an empty list falls through and passes.  Non-tensor non-list values pass. -/
def verify_tensor (vt : Bool) (arg : PyV) (tensorName tensorType : String) (p : TParams) :
    Except String Unit :=
  if vt = false then .ok ()
  else
    match arg with
    | .tensor t => checkTensor t tensorName tensorType p
    | .listV [] => .ok ()
    | .listV (a :: _) => verify_tensor vt a tensorName "" p
    | _ => .ok ()

/-- The module-level `tensor_types` dict, in insertion order. -/
def tensorTypes : List (String × TParams) :=
  [("IMAGE", ⟨some [4], none, some [1, 3, 4]⟩),
   ("MASK", ⟨some [3], none, none⟩),
   ("DEPTH", ⟨some [4], none, some [1]⟩)]

/-- `_verify_tensor_type(key, arg, required_inputs, optional_inputs, tensor_name)`:
scan `tensor_types` in order, and for the first entry whose tag equals the
declared tag of `key` in the required or optional input map, run
`_verify_tensor` with that entry's params; otherwise pass.  Input maps are
modelled as association lists from parameter name to declared tag
(`required_inputs[key][0]` in the source). -/
def verify_tensor_type (vt : Bool) (key : String) (arg : PyV)
    (required_inputs optional_inputs : List (String × String)) (tensorName : String) :
    Except String Unit :=
  match tensorTypes.find? (fun tp =>
      required_inputs.lookup key == some tp.1 || optional_inputs.lookup key == some tp.1) with
  | some tp => verify_tensor vt arg tensorName tp.1 tp.2
  | none => .ok ()

/-- `_verify_return_type(ret, return_type, tensor_name)`. -/
def verify_return_type (vt : Bool) (ret : PyV) (returnType : String) (tensorName : String) :
    Except String Unit :=
  match tensorTypes.lookup returnType with
  | some p => verify_tensor vt ret tensorName returnType p
  | none => .ok ()

/-- Python dict assignment `d[k] = v` on an association list: overwrite in
place when the key exists, append otherwise. -/
def dictSet {α : Type} (l : List (String × α)) (k : String) (v : α) : List (String × α) :=
  if (l.lookup k).isSome then l.map (fun p => if p.1 = k then (k, v) else p)
  else l ++ [(k, v)]

/-- The three module-level type-registry dicts.  `toComfyUIType` is
`_ANNOTATION_TO_COMFYUI_TYPE`, keyed by fully-qualified type name. -/
structure TypeRegistry where
  toComfyUIType : List (String × String)
  shouldAutoconvert : List (String × Bool)
  defaultForceInput : List (String × Bool)
deriving Repr, DecidableEq

/-- `register_type(cls, name, should_autoconvert, is_auto_register, force_input)`:
if the fully-qualified name `key` is already a key of
`_ANNOTATION_TO_COMFYUI_TYPE` the call returns immediately; otherwise all
three dicts are updated.  `is_auto_register` is accepted and ignored, as in
the source (its assert is commented out). -/
def register_type (reg : TypeRegistry) (key name : String)
    (should_autoconvert is_auto_register force_input : Bool) : TypeRegistry :=
  if (reg.toComfyUIType.lookup key).isSome then reg
  else
    { toComfyUIType := dictSet reg.toComfyUIType key name
      shouldAutoconvert := dictSet reg.shouldAutoconvert key should_autoconvert
      defaultForceInput := dictSet reg.defaultForceInput key force_input }

/-- The registry state after the eight module-load `register_type` calls.
`_SHOULD_AUTOCONVERT` starts as `{"str": True}` in the source. -/
def registryAfterBuiltins : TypeRegistry :=
  let r0 : TypeRegistry := ⟨[], [("str", true)], []⟩
  let r1 := register_type r0 "torch.Tensor" "TENSOR" false false false
  let r2 := register_type r1 "comfy_annotations.ImageTensor" "IMAGE" false false false
  let r3 := register_type r2 "comfy_annotations.MaskTensor" "MASK" false false false
  let r4 := register_type r3 "builtins.int" "INT" false false false
  let r5 := register_type r4 "builtins.float" "FLOAT" false false false
  let r6 := register_type r5 "builtins.str" "STRING" false false false
  let r7 := register_type r6 "builtins.bool" "BOOLEAN" false false false
  register_type r7 "comfy_annotations.AnyType" "*" false false false

/-- The two global registries `NODE_CLASS_MAPPINGS` (workflow name to node
class, classes modelled by numeric identity) and
`NODE_DISPLAY_NAME_MAPPINGS` (workflow name to display name). -/
structure NodeRegistries where
  classMappings : List (String × Nat)
  displayNameMappings : List (String × String)
deriving Repr, DecidableEq

/-- The three duplicate asserts of `_create_comfy_node`, as structured
errors carrying the data interpolated into the assert message. -/
inductive DupErr where
  | dupWorkflowName (workflowName : String)
  | dupDisplayName (displayName : String)
  | dupNodeClass (classId : Nat)
deriving Repr, DecidableEq

/-- `_create_comfy_node` restricted to its registry effect: when
`already_initialized` is false, assert that the workflow name is not a key of
`NODE_CLASS_MAPPINGS`, that the display name is not among the values of
`NODE_DISPLAY_NAME_MAPPINGS`, and that the owning class is not among the
values of `NODE_CLASS_MAPPINGS`; then (or unconditionally once initialized)
store the class under the workflow name in both dicts.  A function with no
owning class gets a freshly synthesized class (`type(workflow_name, ...)`),
modelled by `freshClassId`. -/
def create_comfy_node (already_initialized : Bool) (workflowName displayName : String)
    (nodeClass : Option Nat) (freshClassId : Nat) (reg : NodeRegistries) :
    Except DupErr NodeRegistries :=
  let storedClass : Nat :=
    match nodeClass with
    | some c => c
    | none => freshClassId
  let proceed : Except DupErr NodeRegistries :=
    .ok ⟨dictSet reg.classMappings workflowName storedClass,
         dictSet reg.displayNameMappings workflowName displayName⟩
  if already_initialized = false then
    if (reg.classMappings.lookup workflowName).isSome then
      .error (.dupWorkflowName workflowName)
    else if displayName ∈ reg.displayNameMappings.map Prod.snd then
      .error (.dupDisplayName displayName)
    else
      match nodeClass with
      | some c =>
        if c ∈ reg.classMappings.map Prod.snd then .error (.dupNodeClass c) else proceed
      | none => proceed
  else proceed

/-- A value of a keyword argument after list-mode normalization: either the
sequence the host delivered (for parameters the function declared as lists)
or the unwrapped scalar. -/
inductive ListArg (V : Type) where
  | scalar (v : V)
  | seq (vs : List V)
deriving Repr, DecidableEq

/-- The body of the wrapper's list-mode loop: for each keyword argument, if
the parameter was not annotated as a list, `assert len(kwargs[arg_name]) == 1`
and unwrap it to the single element (`input_is_list_map[arg_name]` raises
KeyError for a key missing from the map). -/
def unwrapKwargs {V : Type} (inputIsListMap : List (String × Bool)) :
    List (String × List V) → Except String (List (String × ListArg V))
  | [] => .ok []
  | (k, vs) :: rest =>
    match inputIsListMap.lookup k with
    | none => .error ("KeyError: " ++ k)
    | some true =>
      match unwrapKwargs inputIsListMap rest with
      | .error e => .error e
      | .ok os => .ok ((k, .seq vs) :: os)
    | some false =>
      match vs with
      | [v] =>
        match unwrapKwargs inputIsListMap rest with
        | .error e => .error e
        | .ok os => .ok ((k, .scalar v) :: os)
      | _ => .error "AssertionError: len(kwargs[arg_name]) == 1"

/-- The wrapper's list-mode step (`if input_is_list:` at lines 571-577):
the unwrapping loop runs only when some parameter is list-annotated
(`input_is_list = any(input_is_list_map.values())`); otherwise the kwargs
pass through untouched. -/
def listModeStep {V : Type} (inputIsListMap : List (String × Bool))
    (kwargs : List (String × List V)) : Except String (List (String × ListArg V)) :=
  if inputIsListMap.any (fun p => p.2) then unwrapKwargs inputIsListMap kwargs
  else .ok (kwargs.map (fun p => (p.1, ListArg.seq p.2)))

/-- `arg.unsqueeze(0)`: insert a leading singleton axis. -/
def unsqueeze0 (t : STensor) : STensor := ⟨1 :: t.shape, t.data, t.device⟩

/-- The wrapper's MASK promotion step (lines 538-540): a tensor keyword
argument is unsqueezed exactly when its key is in `required_inputs` with
declared tag `"MASK"` and the tensor is 2-dimensional.  The optional-input
map is in scope in the wrapper but not consulted by this step. -/
def maskPromoteStep (required_inputs optional_inputs : List (String × String))
    (key : String) (t : STensor) : STensor :=
  if required_inputs.lookup key = some "MASK" ∧ t.shape.length = 2 then unsqueeze0 t else t

/-- The declared tag of a parameter in the node's input schema: its entry in
the required map, or else in the optional map. -/
def schemaTag (required_inputs optional_inputs : List (String × String)) (key : String) :
    Option String :=
  match required_inputs.lookup key with
  | some tag => some tag
  | none => optional_inputs.lookup key

/-- The failures `_call_function_and_verify_result` can raise, as structured
values: an exception from the implementation itself, the `result is None`
assert, the return-arity assert (carrying both counts, the wrapped name and
the source location interpolated into its message), a wrapped output
verification error (carrying the source location), and the final
`assert False, "Should never reach this point"`. -/
inductive NodeErr where
  | implErr (msg : String)
  | noneAssert (wrappedName loc : String)
  | arityErr (got expected : Nat) (wrappedName loc : String)
  | outputVerifyErr (inner loc : String)
  | assertNeverReach
deriving Repr, DecidableEq

/-- `if not isinstance(result, tuple): result = (result,)`. -/
def wrapResult : PyV → List PyV
  | .tup vs => vs
  | r => [r]

/-- The output-verification loop of `_call_function_and_verify_result`:
verify each returned value against its declared return type, naming it
`'return_names[i]'` when names were given and `return_i` otherwise, and
wrap any verification failure as the OUTPUT ValueError with the source
location attached. -/
def verifyOutputs (vt : Bool) (loc : String) (returnNames : Option (List String)) :
    Nat → List (PyV × String) → Except NodeErr Unit
  | _, [] => .ok ()
  | i, (ret, ty) :: rest =>
    let nm : String :=
      match returnNames with
      | some ns => "'" ++ ns.getD i "" ++ "'"
      | none => "return_" ++ toString i
    match verify_return_type vt ret ty nm with
    | .error e => .error (.outputVerifyErr ("Error verifying OUTPUT tensor " ++ e) loc)
    | .ok _ => verifyOutputs vt loc returnNames (i + 1) rest

/-- One iteration of the try-block of `_call_function_and_verify_result`:
call the implementation (whose outcome for this attempt is `implResult`),
then, with no declared returns, assert the result is `None` and return
`(None,)`; otherwise wrap a non-tuple result, assert the arity matches the
declared return types, move every element to the cpu, and verify each
element against its declared type. -/
def attemptBody (vt : Bool) (implResult : Except String PyV)
    (adjustedReturnTypes : List String) (returnNames : Option (List String))
    (wrappedName loc : String) : Except NodeErr (List PyV) :=
  match implResult with
  | .error e => .error (.implErr e)
  | .ok result =>
    if adjustedReturnTypes.length = 0 then
      match result with
      | .noneV => .ok [.noneV]
      | _ => .error (.noneAssert wrappedName loc)
    else
      let resultTuple := wrapResult result
      if resultTuple.length ≠ adjustedReturnTypes.length then
        .error (.arityErr resultTuple.length adjustedReturnTypes.length wrappedName loc)
      else
        match verifyOutputs vt loc returnNames 0 (resultTuple.zip adjustedReturnTypes) with
        | .error e => .error e
        | .ok _ => .ok (allToList "cpu" resultTuple)

/-- One invocation of the configured `process_exception_logic` hook: the
source calls it as `process_exception_logic(func, e, input_desc, buffer)`. -/
structure HookCall where
  funcName : String
  exc : NodeErr
  inputDesc : List String
  logBuffer : String
deriving Repr, DecidableEq

/-- The retry loop of `_call_function_and_verify_result`.  The source runs
`while try_count < max_tries`, incrementing `try_count` at the top; here
`remaining = max_tries - try_count` counts the iterations still allowed, so
`remaining = 0` is the loop exiting into `assert False`, and the re-raise
condition `try_count == max_tries` is `remaining = 1` at entry to the
iteration.  `impl n` is the outcome of the implementation on its n-th call
(1-indexed), `logs n` is the log output captured into the buffer during that
attempt, and the second component accumulates the hook invocations made so
far (only when a hook is configured). -/
def retryLoop (hookConfigured : Bool) (funcName : String) (inputDesc : List String)
    (logs : Nat → String) (impl : Nat → Except String PyV) (vt : Bool)
    (adjustedReturnTypes : List String) (returnNames : Option (List String))
    (wrappedName loc : String) :
    Nat → Nat → List HookCall → Except NodeErr (List PyV) × List HookCall
  | 0, _, calls => (.error .assertNeverReach, calls)
  | remaining + 1, tryCount, calls =>
    match attemptBody vt (impl (tryCount + 1)) adjustedReturnTypes returnNames wrappedName loc with
    | .ok r => (.ok r, calls)
    | .error e =>
      if remaining = 0 then (.error e, calls)
      else
        retryLoop hookConfigured funcName inputDesc logs impl vt adjustedReturnTypes returnNames
          wrappedName loc remaining (tryCount + 1)
          (if hookConfigured then calls ++ [⟨funcName, e, inputDesc, logs (tryCount + 1)⟩]
           else calls)

/-- `_call_function_and_verify_result` with the module globals `max_tries`
and `process_exception_logic` (configured or not) passed explicitly, started
at `try_count = 0` with no hook invocations made. -/
def call_function_and_verify_result (max_tries : Nat) (hookConfigured : Bool)
    (funcName : String) (inputDesc : List String) (logs : Nat → String)
    (impl : Nat → Except String PyV) (vt : Bool) (adjustedReturnTypes : List String)
    (returnNames : Option (List String)) (wrappedName loc : String) :
    Except NodeErr (List PyV) × List HookCall :=
  retryLoop hookConfigured funcName inputDesc logs impl vt adjustedReturnTypes returnNames
    wrappedName loc max_tries 0 []

/-- The list of hook invocations for attempts `start, start+1, ...`, `k` of
them in order. -/
def hookRange (mk : Nat → HookCall) (start : Nat) : Nat → List HookCall
  | 0 => []
  | k + 1 => mk start :: hookRange mk (start + 1) k

/-- A Python type annotation as far as the introspector looks at it: a plain
class (identified by its fully-qualified name), `list[T]`, `tuple[...]`, or
the absent annotation `inspect.Parameter.empty`. -/
inductive TypeAnn where
  | basic (fqName : String)
  | listOf (elem : TypeAnn)
  | tupleOf (elems : List TypeAnn)
  | empty
deriving Repr

/-- `_get_fully_qualified_name` of an annotation (generic aliases delegate
`__module__`/`__qualname__` to their origin class). -/
def annKey : TypeAnn → String
  | .basic n => n
  | .listOf _ => "builtins.list"
  | .tupleOf _ => "builtins.tuple"
  | .empty => "inspect.Parameter.empty"

/-- `_get_type_str`: look the fully-qualified name up in
`_ANNOTATION_TO_COMFYUI_TYPE`; for an unregistered `list[T]` recurse on `T`;
otherwise fall back to the wildcard tag `"*"`. -/
def getTypeStr (reg : List (String × String)) : TypeAnn → String
  | .listOf elem =>
    match reg.lookup "builtins.list" with
    | some s => s
    | none => getTypeStr reg elem
  | a =>
    match reg.lookup (annKey a) with
    | some s => s
    | none => "*"

/-- The per-element branch of `_infer_return_types_from_annotations` for a
tuple member: `list[T]` contributes `(_get_type_str(T), True)`, anything
else `(_get_type_str(arg), False)`. -/
def inferOneReturn (reg : List (String × String)) : TypeAnn → String × Bool
  | .listOf elem => (getTypeStr reg elem, true)
  | a => (getTypeStr reg a, false)

/-- The tuple branch of `_infer_return_types_from_annotations`, also used
when a literal list of return types is passed to the decorator (the source
then sets `origin = tuple`). -/
def inferReturnTypesFromTupleArgs (reg : List (String × String)) (args : List TypeAnn) :
    List String × List Bool :=
  (args.map (fun a => (inferOneReturn reg a).1), args.map (fun a => (inferOneReturn reg a).2))

/-- `_infer_return_types_from_annotations` on a function's declared return
annotation: a tuple annotation maps elementwise, `list[T]` gives one
list-valued slot, a missing annotation gives no return slots, and anything
else gives one scalar slot. -/
def inferReturnTypes (reg : List (String × String)) : TypeAnn → List String × List Bool
  | .tupleOf args => inferReturnTypesFromTupleArgs reg args
  | .listOf elem => ([getTypeStr reg elem], [true])
  | .empty => ([], [])
  | a => ([getTypeStr reg a], [false])

/-- `adjusted_return_types` as computed by the decorator: from the explicit
`return_types` argument when given, otherwise from the function's return
annotation. -/
def comfyFuncAdjustedReturnTypes (reg : List (String × String))
    (return_types : Option (List TypeAnn)) (retAnn : TypeAnn) : List String :=
  match return_types with
  | some tys => (inferReturnTypesFromTupleArgs reg tys).1
  | none => (inferReturnTypes reg retAnn).1

/-- The `OUTPUT_NODE` flag the decorator compiles:
`force_output = len(adjusted_return_types) == 0` and the node dict gets
`is_output_node or force_output`. -/
def comfyFuncIsOutputNode (reg : List (String × String))
    (return_types : Option (List TypeAnn)) (retAnn : TypeAnn) (is_output_node : Bool) : Bool :=
  let adjusted := comfyFuncAdjustedReturnTypes reg return_types retAnn
  is_output_node || decide (adjusted.length = 0)

/-- A Python object as far as `!=` against the wildcard looks at it. -/
inductive PyObj where
  | anyTypeStr (s : String)
  | plainStr (s : String)
  | intObj (n : Int)
  | boolObj (b : Bool)
  | noneObj
deriving Repr, DecidableEq

/-- Default `==` semantics for the modelled objects (`AnyType` is a `str`
subclass, so its inherited `__eq__` compares string contents). -/
def pyDefaultEq : PyObj → PyObj → Bool
  | .anyTypeStr a, .anyTypeStr b => a == b
  | .anyTypeStr a, .plainStr b => a == b
  | .plainStr a, .anyTypeStr b => a == b
  | .plainStr a, .plainStr b => a == b
  | .intObj a, .intObj b => a == b
  | .boolObj a, .boolObj b => a == b
  | .noneObj, .noneObj => true
  | _, _ => false

/-- Python `a != b` dispatch: `AnyType.__ne__` returns `False` for every
argument; every other modelled type uses the default negation of `==`. -/
def pyNe : PyObj → PyObj → Bool
  | .anyTypeStr _, _ => false
  | a, b => !pyDefaultEq a b

/-- The module-level `any_type = AnyType("*")`. -/
def any_type : PyObj := .anyTypeStr "*"

/-- Boolean predicate for a rational lying in the unit interval, used to
state counterexamples without binders. -/
def inRange01 (x : Rat) : Bool := decide (0 ≤ x) && decide (x ≤ 1)

/-- A concrete implementation behaviour: raise on the first two calls,
succeed with the int 7 on later calls. -/
def implW : Nat → Except String PyV := fun n => if n ≤ 2 then .error "boom" else .ok (.intV 7)

/-- A concrete implementation behaviour: raise on every call. -/
def implFailW : Nat → Except String PyV := fun _ => .error "boom"

/- ------------------------------------------------------------------ -/
/- Helper lemmas.                                                      -/
/- ------------------------------------------------------------------ -/

theorem rmin_le_left (a b : Rat) : rmin a b ≤ a := by
  unfold rmin; split
  · exact le_refl a
  · exact le_of_not_le (by assumption)

theorem rmin_le_right (a b : Rat) : rmin a b ≤ b := by
  unfold rmin; split
  · assumption
  · exact le_refl b

theorem le_rmin (c a b : Rat) (h1 : c ≤ a) (h2 : c ≤ b) : c ≤ rmin a b := by
  unfold rmin; split <;> assumption

theorem left_le_rmax (a b : Rat) : a ≤ rmax a b := by
  unfold rmax; split
  · assumption
  · exact le_refl a

theorem right_le_rmax (a b : Rat) : b ≤ rmax a b := by
  unfold rmax; split
  · exact le_refl b
  · exact le_of_not_le (by assumption)

theorem rmax_le (c a b : Rat) (h1 : a ≤ c) (h2 : b ≤ c) : rmax a b ≤ c := by
  unfold rmax; split <;> assumption

theorem tensorMin_cons (x a : Rat) (t : List Rat) :
    tensorMin x (a :: t) = tensorMin (rmin x a) t := rfl

theorem tensorMax_cons (x a : Rat) (t : List Rat) :
    tensorMax x (a :: t) = tensorMax (rmax x a) t := rfl

theorem tensorMin_le_init : ∀ (xs : List Rat) (x : Rat), tensorMin x xs ≤ x := by
  intro xs
  induction xs with
  | nil => intro x; exact le_refl x
  | cons a t ih =>
    intro x
    rw [tensorMin_cons]
    exact le_trans (ih (rmin x a)) (rmin_le_left x a)

theorem init_le_tensorMax : ∀ (xs : List Rat) (x : Rat), x ≤ tensorMax x xs := by
  intro xs
  induction xs with
  | nil => intro x; exact le_refl x
  | cons a t ih =>
    intro x
    exact le_trans (left_le_rmax x a) (ih (rmax x a))

theorem tensorMin_le_mem : ∀ (xs : List Rat) (x y : Rat), y ∈ x :: xs → tensorMin x xs ≤ y := by
  intro xs
  induction xs with
  | nil =>
    intro x y hy
    have : y = x := by simpa using hy
    subst this
    exact le_refl y
  | cons a t ih =>
    intro x y hy
    rw [tensorMin_cons]
    rcases List.mem_cons.mp hy with h | h
    · subst h
      exact le_trans (tensorMin_le_init t (rmin y a)) (rmin_le_left y a)
    · rcases List.mem_cons.mp h with h2 | h2
      · subst h2
        exact le_trans (tensorMin_le_init t (rmin x y)) (rmin_le_right x y)
      · exact ih (rmin x a) y (List.mem_cons_of_mem _ h2)

theorem mem_le_tensorMax : ∀ (xs : List Rat) (x y : Rat), y ∈ x :: xs → y ≤ tensorMax x xs := by
  intro xs
  induction xs with
  | nil =>
    intro x y hy
    have : y = x := by simpa using hy
    subst this
    exact le_refl y
  | cons a t ih =>
    intro x y hy
    rcases List.mem_cons.mp hy with h | h
    · subst h
      exact le_trans (left_le_rmax y a) (init_le_tensorMax t (rmax y a))
    · rcases List.mem_cons.mp h with h2 | h2
      · subst h2
        exact le_trans (right_le_rmax x y) (init_le_tensorMax t (rmax x y))
      · exact ih (rmax x a) y (List.mem_cons_of_mem _ h2)

theorem le_tensorMin (c : Rat) :
    ∀ (xs : List Rat) (x : Rat), c ≤ x → (∀ y ∈ xs, c ≤ y) → c ≤ tensorMin x xs := by
  intro xs
  induction xs with
  | nil => intro x hx _; exact hx
  | cons a t ih =>
    intro x hx hall
    rw [tensorMin_cons]
    exact ih (rmin x a) (le_rmin c x a hx (hall a (by simp)))
      (fun y hy => hall y (by simp [hy]))

theorem tensorMax_le (c : Rat) :
    ∀ (xs : List Rat) (x : Rat), x ≤ c → (∀ y ∈ xs, y ≤ c) → tensorMax x xs ≤ c := by
  intro xs
  induction xs with
  | nil => intro x hx _; exact hx
  | cons a t ih =>
    intro x hx hall
    exact ih (rmax x a) (rmax_le c x a hx (hall a (by simp)))
      (fun y hy => hall y (by simp [hy]))

theorem hookRange_length (mk : Nat → HookCall) :
    ∀ (k start : Nat), (hookRange mk start k).length = k := by
  intro k
  induction k with
  | zero => intro start; rfl
  | succ n ih => intro start; simp [hookRange, ih]

theorem find_tag_MASK (required optional : List (String × String)) (key : String)
    (hdecl : (required.lookup key = some "MASK" ∧ optional.lookup key = none) ∨
      (required.lookup key = none ∧ optional.lookup key = some "MASK")) :
    tensorTypes.find? (fun tp =>
        required.lookup key == some tp.1 || optional.lookup key == some tp.1)
      = some ("MASK", ⟨some [3], none, none⟩) := by
  rcases hdecl with ⟨h1, h2⟩ | ⟨h1, h2⟩ <;> simp only [h1, h2] <;> decide

theorem verify_tensor_vtoff (arg : PyV) (nm tt : String) (p : TParams) :
    verify_tensor false arg nm tt p = .ok () := by
  cases arg with
  | tensor t => rfl
  | listV elems => cases elems <;> rfl
  | tup elems => rfl
  | strV s => rfl
  | noneV => rfl
  | intV n => rfl

theorem verifyOutputs_error_shape (vt : Bool) (loc : String) (names : Option (List String)) :
    ∀ (rets : List (PyV × String)) (i : Nat) (e : NodeErr),
      verifyOutputs vt loc names i rets = .error e → ∃ m, e = .outputVerifyErr m loc := by
  intro rets
  induction rets with
  | nil => intro i e h; simp [verifyOutputs] at h
  | cons hd rest ih =>
    intro i e h
    obtain ⟨ret, ty⟩ := hd
    simp only [verifyOutputs] at h
    split at h
    · exact ⟨_, (Except.error.injEq .. ▸ h).symm⟩
    · exact ih (i + 1) e h

theorem unwrapKwargs_err {V : Type} (m : List (String × Bool)) (k : String) (vs : List V) :
    ∀ (kwargs : List (String × List V)), m.lookup k = some false → (k, vs) ∈ kwargs →
      vs.length ≠ 1 → ∃ e, unwrapKwargs m kwargs = .error e := by
  intro kwargs
  induction kwargs with
  | nil => intro _ hmem _; simp at hmem
  | cons hd rest ih =>
    intro hlk hmem hlen
    obtain ⟨k2, vs2⟩ := hd
    rcases List.mem_cons.mp hmem with heq | hmem2
    · obtain ⟨hk, hv⟩ := Prod.mk.injEq .. ▸ heq
      subst hk; subst hv
      rcases vs with _ | ⟨v, _ | ⟨v2, vt⟩⟩
      · exact ⟨"AssertionError: len(kwargs[arg_name]) == 1", by simp [unwrapKwargs, hlk]⟩
      · simp at hlen
      · exact ⟨"AssertionError: len(kwargs[arg_name]) == 1", by simp [unwrapKwargs, hlk]⟩
    · obtain ⟨e, he⟩ := ih hlk hmem2 hlen
      cases hm : m.lookup k2 with
      | none => exact ⟨"KeyError: " ++ k2, by simp [unwrapKwargs, hm]⟩
      | some b =>
        cases b
        · rcases vs2 with _ | ⟨v, _ | ⟨v2, vt⟩⟩
          · exact ⟨"AssertionError: len(kwargs[arg_name]) == 1", by simp [unwrapKwargs, hm]⟩
          · exact ⟨e, by simp [unwrapKwargs, hm, he]⟩
          · exact ⟨"AssertionError: len(kwargs[arg_name]) == 1", by simp [unwrapKwargs, hm]⟩
        · exact ⟨e, by simp [unwrapKwargs, hm, he]⟩

theorem unwrapKwargs_ok_mem {V : Type} (m : List (String × Bool)) (k : String) (v : V) :
    ∀ (kwargs : List (String × List V)) (out : List (String × ListArg V)),
      unwrapKwargs m kwargs = .ok out → (k, [v]) ∈ kwargs →
      m.lookup k = some false → (k, ListArg.scalar v) ∈ out := by
  intro kwargs
  induction kwargs with
  | nil => intro out _ hmem _; simp at hmem
  | cons hd rest ih =>
    intro out hok hmem hlk
    obtain ⟨k2, vs2⟩ := hd
    rcases List.mem_cons.mp hmem with heq | hmem2
    · obtain ⟨hk, hv⟩ := Prod.mk.injEq .. ▸ heq
      subst hk; subst hv
      simp only [unwrapKwargs, hlk] at hok
      cases hr : unwrapKwargs m rest with
      | error e => rw [hr] at hok; simp at hok
      | ok os =>
        rw [hr] at hok
        simp only [Except.ok.injEq] at hok
        subst hok
        exact List.mem_cons_self _ _
    · cases hm : m.lookup k2 with
      | none => simp [unwrapKwargs, hm] at hok
      | some b =>
        cases b
        · rcases vs2 with _ | ⟨v2, _ | ⟨v3, vt⟩⟩
          · simp [unwrapKwargs, hm] at hok
          · simp only [unwrapKwargs, hm] at hok
            cases hr : unwrapKwargs m rest with
            | error e => rw [hr] at hok; simp at hok
            | ok os =>
              rw [hr] at hok
              simp only [Except.ok.injEq] at hok
              subst hok
              exact List.mem_cons_of_mem _ (ih os hr hmem2 hlk)
          · simp [unwrapKwargs, hm] at hok
        · simp only [unwrapKwargs, hm] at hok
          cases hr : unwrapKwargs m rest with
          | error e => rw [hr] at hok; simp at hok
          | ok os =>
            rw [hr] at hok
            simp only [Except.ok.injEq] at hok
            subst hok
            exact List.mem_cons_of_mem _ (ih os hr hmem2 hlk)

theorem retryLoop_ok_of_prefix_failures (funcName : String) (inputDesc : List String)
    (logs : Nat → String) (impl : Nat → Except String PyV) (vt : Bool)
    (adjusted : List String) (returnNames : Option (List String)) (wname loc : String)
    (errOf : Nat → NodeErr) (r : List PyV) :
    ∀ (k remaining tryCount : Nat) (calls : List HookCall),
      k < remaining →
      (∀ i, tryCount < i → i ≤ tryCount + k →
        attemptBody vt (impl i) adjusted returnNames wname loc = .error (errOf i)) →
      attemptBody vt (impl (tryCount + k + 1)) adjusted returnNames wname loc = .ok r →
      retryLoop true funcName inputDesc logs impl vt adjusted returnNames wname loc
          remaining tryCount calls
        = (.ok r,
           calls ++ hookRange (fun i => ⟨funcName, errOf i, inputDesc, logs i⟩) (tryCount + 1) k) := by
  intro k
  induction k with
  | zero =>
    intro remaining tryCount calls hrem hfail hsucc
    obtain ⟨rem, rfl⟩ : ∃ rem, remaining = rem + 1 := ⟨remaining - 1, by omega⟩
    simp only [retryLoop, hsucc, hookRange, List.append_nil]
  | succ k ih =>
    intro remaining tryCount calls hrem hfail hsucc
    obtain ⟨rem, rfl⟩ : ∃ rem, remaining = rem + 1 := ⟨remaining - 1, by omega⟩
    have hfirst : attemptBody vt (impl (tryCount + 1)) adjusted returnNames wname loc
        = .error (errOf (tryCount + 1)) := hfail (tryCount + 1) (by omega) (by omega)
    have hrem0 : rem ≠ 0 := by omega
    have hidx : tryCount + 1 + k + 1 = tryCount + (k + 1) + 1 := by omega
    have happ := ih rem (tryCount + 1)
      (calls ++ [⟨funcName, errOf (tryCount + 1), inputDesc, logs (tryCount + 1)⟩])
      (by omega) (fun i h1 h2 => hfail i (by omega) (by omega)) (by rw [hidx]; exact hsucc)
    simp only [retryLoop, hfirst]
    rw [if_neg hrem0]
    simp only [if_true]
    rw [happ]
    simp [hookRange, List.append_assoc]

theorem retryLoop_error_of_all_failures (hookConfigured : Bool) (funcName : String)
    (inputDesc : List String) (logs : Nat → String) (impl : Nat → Except String PyV)
    (vt : Bool) (adjusted : List String) (returnNames : Option (List String))
    (wname loc : String) (errOf : Nat → NodeErr) :
    ∀ (remaining tryCount : Nat) (calls : List HookCall),
      1 ≤ remaining →
      (∀ i, tryCount < i → i ≤ tryCount + remaining →
        attemptBody vt (impl i) adjusted returnNames wname loc = .error (errOf i)) →
      (retryLoop hookConfigured funcName inputDesc logs impl vt adjusted returnNames wname loc
          remaining tryCount calls).1 = .error (errOf (tryCount + remaining)) := by
  intro remaining
  induction remaining with
  | zero => intro _ _ h _; omega
  | succ rem ih =>
    intro tryCount calls _ hfail
    have hfirst : attemptBody vt (impl (tryCount + 1)) adjusted returnNames wname loc
        = .error (errOf (tryCount + 1)) := hfail (tryCount + 1) (by omega) (by omega)
    by_cases h0 : rem = 0
    · subst h0
      simp only [retryLoop, hfirst]
      rfl
    · simp only [retryLoop, hfirst]
      rw [if_neg h0]
      have hix : tryCount + 1 + rem = tryCount + (rem + 1) := by omega
      have := ih (tryCount + 1)
        (if hookConfigured then
          calls ++ [⟨funcName, errOf (tryCount + 1), inputDesc, logs (tryCount + 1)⟩]
         else calls)
        (by omega) (fun i h1 h2 => hfail i (by omega) (by omega))
      rw [hix] at this
      exact this

/- ------------------------------------------------------------------ -/
/- Claim theorems.                                                     -/
/- ------------------------------------------------------------------ -/

/-- C1: with a failure hook configured, if every one of the first K calls of
the implementation makes the attempt fail and call K+1 succeeds (yielding
the normalized result `r`), and `max_tries > K`, then
`_call_function_and_verify_result` returns `r` and the hook is invoked
exactly K times, the i-th invocation receiving the function, the i-th
attempt's exception, the textual input description, and the log buffer
captured during that attempt; and if every attempt up to `max_tries` fails,
the last attempt's exception is re-raised unchanged. -/
theorem c1_retry_and_hook (funcName : String) (inputDesc : List String) (logs : Nat → String)
    (impl : Nat → Except String PyV) (vt : Bool) (adjusted : List String)
    (returnNames : Option (List String)) (wname loc : String) (max_tries : Nat)
    (errOf : Nat → NodeErr) :
    (∀ K r, K < max_tries →
      (∀ i, 1 ≤ i → i ≤ K →
        attemptBody vt (impl i) adjusted returnNames wname loc = .error (errOf i)) →
      attemptBody vt (impl (K + 1)) adjusted returnNames wname loc = .ok r →
      call_function_and_verify_result max_tries true funcName inputDesc logs impl vt adjusted
          returnNames wname loc
        = (.ok r, hookRange (fun i => ⟨funcName, errOf i, inputDesc, logs i⟩) 1 K)
      ∧ (hookRange (fun i => ⟨funcName, errOf i, inputDesc, logs i⟩) 1 K).length = K)
  ∧ (1 ≤ max_tries →
      (∀ i, 1 ≤ i → i ≤ max_tries →
        attemptBody vt (impl i) adjusted returnNames wname loc = .error (errOf i)) →
      (call_function_and_verify_result max_tries true funcName inputDesc logs impl vt adjusted
          returnNames wname loc).1
        = .error (errOf max_tries)) := by
  constructor
  · intro K r hK hfail hsucc
    constructor
    · have h := retryLoop_ok_of_prefix_failures funcName inputDesc logs impl vt adjusted
        returnNames wname loc errOf r K max_tries 0 [] hK
        (fun i h1 h2 => hfail i (by omega) (by omega))
        (by have hix : 0 + K + 1 = K + 1 := by omega
            rw [hix]; exact hsucc)
      simpa [call_function_and_verify_result] using h
    · exact hookRange_length _ K 1
  · intro hpos hfail
    have h := retryLoop_error_of_all_failures true funcName inputDesc logs impl vt adjusted
      returnNames wname loc errOf max_tries 0 [] hpos
      (fun i h1 h2 => hfail i (by omega) (by omega))
    simpa [call_function_and_verify_result] using h

/-- Witness for C1 at concrete inputs: `implW` fails twice then returns the
int 7, with `max_tries = 3` the wrapper returns the normalized result and
the hook is called exactly twice; `implFailW` always fails, so with
`max_tries = 2` the last exception is re-raised. -/
theorem c1_witness :
    call_function_and_verify_result 3 true "my_func" ["x (builtins.int): 1"] (fun _ => "log")
        implW true ["INT"] none "wname" "file.py:10"
      = (.ok [.intV 7],
         [⟨"my_func", .implErr "boom", ["x (builtins.int): 1"], "log"⟩,
          ⟨"my_func", .implErr "boom", ["x (builtins.int): 1"], "log"⟩])
  ∧ (call_function_and_verify_result 2 true "my_func" [] (fun _ => "") implFailW true ["INT"]
        none "wname" "file.py:10").1
      = .error (.implErr "boom") := by
  constructor
  · exact ((c1_retry_and_hook "my_func" ["x (builtins.int): 1"] (fun _ => "log") implW true
      ["INT"] none "wname" "file.py:10" 3 (fun _ => .implErr "boom")).1 2 [.intV 7]
      (by omega) (fun i h1 h2 => by interval_cases i <;> rfl) rfl).1
  · exact (c1_retry_and_hook "my_func" [] (fun _ => "") implFailW true ["INT"] none "wname"
      "file.py:10" 2 (fun _ => .implErr "boom")).2 (by omega)
      (fun i h1 h2 => by interval_cases i <;> rfl)

/-- C2: for at least one declared return type, if the implementation's
result (a non-tuple result first wrapped into a 1-tuple) has a length
different from the number of declared return types, the attempt raises the
arity assert, whose structured error carries both counts and the source
location; when the lengths agree no arity error can be raised, and whatever
the attempt returns is the elementwise cpu move of the wrapped result. -/
theorem c2_return_arity (vt : Bool) (res : PyV) (adjusted : List String)
    (returnNames : Option (List String)) (wname loc : String)
    (hN : 1 ≤ adjusted.length) :
    ((wrapResult res).length ≠ adjusted.length →
      attemptBody vt (.ok res) adjusted returnNames wname loc
        = .error (.arityErr (wrapResult res).length adjusted.length wname loc))
  ∧ ((wrapResult res).length = adjusted.length →
      (∀ g n w l, attemptBody vt (.ok res) adjusted returnNames wname loc
          ≠ .error (.arityErr g n w l))
    ∧ (∀ out, attemptBody vt (.ok res) adjusted returnNames wname loc = .ok out →
        out = allToList "cpu" (wrapResult res))) := by
  have hlen0 : ¬(adjusted.length = 0) := by omega
  constructor
  · intro hne
    simp only [attemptBody]
    rw [if_neg hlen0, if_pos hne]
  · intro heq
    constructor
    · intro g n w l hcontra
      simp only [attemptBody] at hcontra
      rw [if_neg hlen0, if_neg (fun hcon => hcon heq)] at hcontra
      split at hcontra
      · rename_i e he
        obtain ⟨msg, hmsg⟩ := verifyOutputs_error_shape vt loc returnNames
          ((wrapResult res).zip adjusted) 0 e he
        rw [hmsg] at hcontra
        simp at hcontra
      · simp at hcontra
    · intro out hout
      simp only [attemptBody] at hout
      rw [if_neg hlen0, if_neg (fun hcon => hcon heq)] at hout
      split at hout
      · simp at hout
      · simpa using hout.symm

/-- Witness for C2 at concrete inputs: with two declared return types a
1-tuple raises the arity error carrying counts 1 and 2 and the location. -/
theorem c2_witness :
    attemptBody true (.ok (.tup [.intV 1])) ["INT", "INT"] none "wname" "file.py:10"
      = .error (.arityErr 1 2 "wname" "file.py:10") :=
  (c2_return_arity true (.tup [.intV 1]) ["INT", "INT"] none "wname" "file.py:10"
    (by decide)).1 (by decide)

/-- C3: `register_type` is first-write-wins idempotent: when the
fully-qualified name is already a key of `_ANNOTATION_TO_COMFYUI_TYPE`, a
later call with any name and flags leaves all three registry dicts exactly
as they were. -/
theorem c3_register_type_idempotent (reg : TypeRegistry) (key name : String)
    (should_autoconvert is_auto_register force_input : Bool)
    (h : (reg.toComfyUIType.lookup key).isSome = true) :
    register_type reg key name should_autoconvert is_auto_register force_input = reg := by
  simp [register_type, h]

/-- Witness for C3: re-registering `builtins.int` with different name and
flags leaves the module-load registry unchanged. -/
theorem c3_witness :
    register_type registryAfterBuiltins "builtins.int" "SOMETHING_ELSE" true true true
      = registryAfterBuiltins :=
  c3_register_type_idempotent registryAfterBuiltins "builtins.int" "SOMETHING_ELSE"
    true true true (by decide)

/-- C4: while `already_initialized` is false, `_create_comfy_node` raises a
duplicate assert whenever the workflow name is already a key of
`NODE_CLASS_MAPPINGS`, or the display name occurs among the values of
`NODE_DISPLAY_NAME_MAPPINGS`, or the owning class occurs among the
registered node classes; once the flag is set it never raises and writes
both registry entries in place via dict assignment. -/
theorem c4_node_registration (already_initialized : Bool) (workflowName displayName : String)
    (nodeClass : Option Nat) (freshClassId : Nat) (reg : NodeRegistries) :
    (already_initialized = false →
      ((reg.classMappings.lookup workflowName).isSome = true ∨
        displayName ∈ reg.displayNameMappings.map Prod.snd ∨
        (∃ c, nodeClass = some c ∧ c ∈ reg.classMappings.map Prod.snd)) →
      ∃ e, create_comfy_node already_initialized workflowName displayName nodeClass
          freshClassId reg = .error e)
  ∧ (already_initialized = true →
      create_comfy_node already_initialized workflowName displayName nodeClass freshClassId reg
        = .ok ⟨dictSet reg.classMappings workflowName (nodeClass.getD freshClassId),
               dictSet reg.displayNameMappings workflowName displayName⟩) := by
  constructor
  · intro hinit hdup
    subst hinit
    by_cases h1 : (reg.classMappings.lookup workflowName).isSome = true
    · exact ⟨.dupWorkflowName workflowName, by simp [create_comfy_node, h1]⟩
    · by_cases h2 : displayName ∈ reg.displayNameMappings.map Prod.snd
      · exact ⟨.dupDisplayName displayName, by simp [create_comfy_node, h1, h2]⟩
      · rcases hdup with h | h | ⟨c, hc, hcm⟩
        · exact absurd h h1
        · exact absurd h h2
        · exact ⟨.dupNodeClass c, by simp [create_comfy_node, h1, h2, hc, hcm]⟩
  · intro hinit
    subst hinit
    cases nodeClass <;> simp [create_comfy_node, Option.getD]

/-- Witness for C4: re-registering the workflow name "Node" raises during
the initialization window and overwrites in place after it. -/
theorem c4_witness :
    (∃ e, create_comfy_node false "Node" "My Node" none 5
        ⟨[("Node", 1)], [("Node", "My Node")]⟩ = .error e)
  ∧ create_comfy_node true "Node" "My Node" none 5 ⟨[("Node", 1)], [("Node", "My Node")]⟩
      = .ok ⟨[("Node", 5)], [("Node", "My Node")]⟩ := by
  constructor
  · exact (c4_node_registration false "Node" "My Node" none 5
      ⟨[("Node", 1)], [("Node", "My Node")]⟩).1 rfl (Or.inl (by decide))
  · have h := (c4_node_registration true "Node" "My Node" none 5
      ⟨[("Node", 1)], [("Node", "My Node")]⟩).2 rfl
    simpa using h

/-- C5 counterexample: two MASK-declared input tensors all of whose elements
lie in the unit interval still fail validation: a 2-dimensional one (the
MASK entry of `tensor_types` carries `allowed_shapes=[3]`) and an empty
3-dimensional one of shape `[0, 2, 2]` (`arg.min()` raises on an empty
tensor before the range comparison), so passing is not independent of the
tensor's shape. -/
theorem c5_counterexample :
    (STensor.mk [2, 2] [0, 1, 0, 1] "cuda:0").data.all inRange01 = true
  ∧ (verify_tensor_type true "m" (.tensor (STensor.mk [2, 2] [0, 1, 0, 1] "cuda:0"))
      [("m", "MASK")] [] "m").isOk = false
  ∧ (STensor.mk [0, 2, 2] ([] : List Rat) "cuda:0").data.all inRange01 = true
  ∧ (verify_tensor_type true "m" (.tensor (STensor.mk [0, 2, 2] ([] : List Rat) "cuda:0"))
      [("m", "MASK")] [] "m").isOk = false := by
  refine ⟨by decide, rfl, by decide, rfl⟩

/-- C5 amended: for an input parameter whose declared host tag is MASK,
whether it sits in the required or in the optional input map (and for a
MASK-typed output), validation with verification enabled raises whenever
some element lies outside the unit interval, and passes when the tensor is
nonempty, all elements lie in the unit interval, and the tensor is
3-dimensional (the nonemptiness and dimension conditions being what the
original claim omitted, per the counterexample). -/
theorem c5_mask_range_amended (t : STensor) (key nm : String)
    (required optional : List (String × String))
    (hdecl : (required.lookup key = some "MASK" ∧ optional.lookup key = none) ∨
      (required.lookup key = none ∧ optional.lookup key = some "MASK")) :
    ((∃ x ∈ t.data, x < 0 ∨ 1 < x) →
      (verify_tensor_type true key (.tensor t) required optional nm).isOk = false
      ∧ (verify_return_type true (.tensor t) "MASK" nm).isOk = false)
  ∧ (t.data ≠ [] → (∀ x ∈ t.data, 0 ≤ x ∧ x ≤ 1) → t.shape.length = 3 →
      verify_tensor_type true key (.tensor t) required optional nm = .ok ()
      ∧ verify_return_type true (.tensor t) "MASK" nm = .ok ()) := by
  have hvt : verify_tensor_type true key (.tensor t) required optional nm
      = checkTensor t nm "MASK" ⟨some [3], none, none⟩ := by
    simp only [verify_tensor_type, find_tag_MASK required optional key hdecl]
    rfl
  have hvr : verify_return_type true (.tensor t) "MASK" nm
      = checkTensor t nm "MASK" ⟨some [3], none, none⟩ := rfl
  constructor
  · intro hbad
    obtain ⟨x, hx, hor⟩ := hbad
    rcases hd : t.data with _ | ⟨d, ds⟩
    · rw [hd] at hx; simp at hx
    · have hxmem : x ∈ d :: ds := hd ▸ hx
      have hcond : ¬(0 ≤ tensorMin d ds ∧ tensorMax d ds ≤ 1) := by
        rcases hor with hlt | hgt
        · intro hco
          exact absurd (le_trans hco.1 (tensorMin_le_mem ds d x hxmem)) (not_le.mpr hlt)
        · intro hco
          exact absurd (le_trans (mem_le_tensorMax ds d x hxmem) hco.2) (not_le.mpr hgt)
      have hmask : maskRangeCheck t nm "MASK"
          = .error (nm ++ ": " ++ "MASK" ++ " tensor must have values between 0 and 1") := by
        simp [maskRangeCheck, hd, hcond]
      have hct : checkTensor t nm "MASK" ⟨some [3], none, none⟩
          = .error (nm ++ ": " ++ "MASK" ++ " tensor must have values between 0 and 1") := by
        simp only [checkTensor, hmask]
      constructor
      · rw [hvt, hct]; rfl
      · rw [hvr, hct]; rfl
  · intro hne hall hshape
    rcases hd : t.data with _ | ⟨d, ds⟩
    · exact absurd hd hne
    · have hdmem : d ∈ t.data := by rw [hd]; simp
      have hmin : 0 ≤ tensorMin d ds :=
        le_tensorMin 0 ds d (hall d hdmem).1
          (fun y hy => (hall y (by rw [hd]; simp [hy])).1)
      have hmax : tensorMax d ds ≤ 1 :=
        tensorMax_le 1 ds d (hall d hdmem).2
          (fun y hy => (hall y (by rw [hd]; simp [hy])).2)
      have hmask : maskRangeCheck t nm "MASK" = .ok () := by
        simp [maskRangeCheck, hd, hmin, hmax]
      have hsh : shapesCheck t nm "MASK" (some [3]) = .ok () := by
        simp [shapesCheck, hshape]
      have hct : checkTensor t nm "MASK" ⟨some [3], none, none⟩ = .ok () := by
        simp only [checkTensor, hmask, hsh]
        rfl
      exact ⟨hvt.trans hct, hvr.trans hct⟩

/-- Witness for C5 amended: a nonempty 3-dimensional unit-interval mask
passes input validation both as a required and as an optional parameter and
passes output validation, and a mask with an element 2 fails. -/
theorem c5_witness :
    (verify_tensor_type true "m" (.tensor ⟨[1, 2, 2], [0, 1, 0, 1], "cpu"⟩)
        [("m", "MASK")] [] "m" = .ok ()
      ∧ verify_return_type true (.tensor ⟨[1, 2, 2], [0, 1, 0, 1], "cpu"⟩) "MASK" "r" = .ok ())
  ∧ verify_tensor_type true "m" (.tensor ⟨[1, 2, 2], [0, 1, 0, 1], "cpu"⟩)
      [] [("m", "MASK")] "m" = .ok ()
  ∧ (verify_return_type true (.tensor ⟨[3], [2], "cpu"⟩) "MASK" "r").isOk = false := by
  refine ⟨?_, ?_, ?_⟩
  · exact (c5_mask_range_amended ⟨[1, 2, 2], [0, 1, 0, 1], "cpu"⟩ "m" "m" [("m", "MASK")] []
      (Or.inl ⟨rfl, rfl⟩)).2 (by decide) (by decide) rfl
  · exact ((c5_mask_range_amended ⟨[1, 2, 2], [0, 1, 0, 1], "cpu"⟩ "m" "m" [] [("m", "MASK")]
      (Or.inr ⟨rfl, rfl⟩)).2 (by decide) (by decide) rfl).1
  · exact ((c5_mask_range_amended ⟨[3], [2], "cpu"⟩ "m" "r" [("m", "MASK")] []
      (Or.inl ⟨rfl, rfl⟩)).1 ⟨2, by decide, Or.inr (by decide)⟩).2

/-- C6: when the schema is list-mode overall (some parameter is declared as
a sequence), a keyword argument for a parameter not declared as a sequence
that arrives with more than one element makes the wrapper's unwrapping loop
raise, and when it arrives with exactly one element it is unwrapped to the
scalar in the resulting kwargs. -/
theorem c6_list_mode_unwrap {V : Type} (m : List (String × Bool)) (kwargs : List (String × List V))
    (hmode : m.any (fun p => p.2) = true) :
    (∀ k vs, m.lookup k = some false → (k, vs) ∈ kwargs → 1 < vs.length →
      ∃ e, listModeStep m kwargs = .error e)
  ∧ (∀ k v out, m.lookup k = some false → (k, [v]) ∈ kwargs →
      listModeStep m kwargs = .ok out → (k, ListArg.scalar v) ∈ out) := by
  constructor
  · intro k vs hlk hmem hlen
    have h := unwrapKwargs_err m k vs kwargs hlk hmem (by omega)
    simpa [listModeStep, hmode] using h
  · intro k v out hlk hmem hok
    have hok2 : unwrapKwargs m kwargs = .ok out := by
      simpa [listModeStep, hmode] using hok
    exact unwrapKwargs_ok_mem m k v kwargs out hok2 hmem hlk

/-- Witness for C6: in a list-mode schema a two-element sequence for the
scalar parameter "b" raises, and a one-element sequence unwraps to the
scalar. -/
theorem c6_witness :
    (∃ e, listModeStep [("a", true), ("b", false)] [("a", [(1 : Int), 2]), ("b", [5, 6])]
      = .error e)
  ∧ ("b", ListArg.scalar (5 : Int))
      ∈ [("a", ListArg.seq [(1 : Int), 2]), ("b", ListArg.scalar (5 : Int))] := by
  constructor
  · exact (c6_list_mode_unwrap [("a", true), ("b", false)]
      [("a", [(1 : Int), 2]), ("b", [5, 6])] rfl).1 "b" [5, 6] rfl (by decide) (by decide)
  · exact (c6_list_mode_unwrap [("a", true), ("b", false)]
      [("a", [(1 : Int), 2]), ("b", [5])] rfl).2 "b" 5
      [("a", ListArg.seq [(1 : Int), 2]), ("b", ListArg.scalar (5 : Int))] rfl (by decide) rfl

/-- C7 counterexample: a parameter whose schema entry (here an optional
input) carries the MASK tag, supplied as a 2-dimensional tensor, is left
unchanged by the wrapper's promotion step, which consults only the required
inputs; in particular the result is still 2-dimensional, not 3-dimensional
as the claim states. -/
theorem c7_counterexample :
    schemaTag [] [("m", "MASK")] "m" = some "MASK"
  ∧ (STensor.mk [2, 2] [0, 0, 0, 0] "cuda:0").shape.length = 2
  ∧ maskPromoteStep [] [("m", "MASK")] "m" (STensor.mk [2, 2] [0, 0, 0, 0] "cuda:0")
      = STensor.mk [2, 2] [0, 0, 0, 0] "cuda:0"
  ∧ (maskPromoteStep [] [("m", "MASK")] "m"
      (STensor.mk [2, 2] [0, 0, 0, 0] "cuda:0")).shape.length ≠ 3 := by
  refine ⟨rfl, rfl, ?_, ?_⟩ <;> decide

/-- C7 amended: only a keyword argument whose key is among the required
inputs with declared tag MASK and whose tensor is 2-dimensional is promoted
by inserting a leading singleton axis; already 3-dimensional tensors and
arguments whose key is not a required MASK input are left unchanged by this
step. -/
theorem c7_mask_promotion_amended (required optional : List (String × String))
    (key : String) (t : STensor) :
    (required.lookup key = some "MASK" → t.shape.length = 2 →
      maskPromoteStep required optional key t = unsqueeze0 t
      ∧ (maskPromoteStep required optional key t).shape = 1 :: t.shape)
  ∧ (t.shape.length = 3 → maskPromoteStep required optional key t = t)
  ∧ (¬required.lookup key = some "MASK" → maskPromoteStep required optional key t = t) := by
  refine ⟨fun h1 h2 => ?_, fun h3 => ?_, fun h4 => ?_⟩
  · constructor
    · simp [maskPromoteStep, h1, h2]
    · simp [maskPromoteStep, h1, h2, unsqueeze0]
  · have : ¬(required.lookup key = some "MASK" ∧ t.shape.length = 2) := by
      intro hco; omega
    simp [maskPromoteStep, this]
  · have : ¬(required.lookup key = some "MASK" ∧ t.shape.length = 2) := by
      intro hco; exact h4 hco.1
    simp [maskPromoteStep, this]

/-- Witness for C7 amended: a required MASK input supplied as a
2-dimensional tensor is promoted to shape `[1, 4, 4]`. -/
theorem c7_witness :
    maskPromoteStep [("m", "MASK")] [] "m" ⟨[4, 4], [0], "cpu"⟩ = ⟨[1, 4, 4], [0], "cpu"⟩ :=
  ((c7_mask_promotion_amended [("m", "MASK")] [] "m" ⟨[4, 4], [0], "cpu"⟩).1 rfl rfl).1

/-- C8: when the decorator's adjusted return-type list (from the explicit
`return_types` argument or inferred from the return annotation) is empty,
the compiled `OUTPUT_NODE` flag is true regardless of `is_output_node`;
when it is nonempty the flag equals `is_output_node`. -/
theorem c8_zero_returns_is_output (reg : List (String × String))
    (return_types : Option (List TypeAnn)) (retAnn : TypeAnn) (is_output_node : Bool) :
    (comfyFuncAdjustedReturnTypes reg return_types retAnn = [] →
      comfyFuncIsOutputNode reg return_types retAnn is_output_node = true)
  ∧ (comfyFuncAdjustedReturnTypes reg return_types retAnn ≠ [] →
      comfyFuncIsOutputNode reg return_types retAnn is_output_node = is_output_node) := by
  constructor
  · intro h
    simp [comfyFuncIsOutputNode, h]
  · intro h
    have : ¬(comfyFuncAdjustedReturnTypes reg return_types retAnn).length = 0 := by
      simpa [List.length_eq_zero] using h
    simp [comfyFuncIsOutputNode, this]

/-- Witness for C8: a function with no return annotation compiles to an
output node even with `is_output_node=False`, and an int-returning function
keeps the given `is_output_node=False`. -/
theorem c8_witness :
    comfyFuncIsOutputNode registryAfterBuiltins.toComfyUIType none TypeAnn.empty false = true
  ∧ comfyFuncIsOutputNode registryAfterBuiltins.toComfyUIType none
      (TypeAnn.basic "builtins.int") false = false := by
  constructor
  · exact (c8_zero_returns_is_output registryAfterBuiltins.toComfyUIType none
      TypeAnn.empty false).1 rfl
  · exact (c8_zero_returns_is_output registryAfterBuiltins.toComfyUIType none
      (TypeAnn.basic "builtins.int") false).2 (by simp [comfyFuncAdjustedReturnTypes,
        inferReturnTypes, getTypeStr, annKey, registryAfterBuiltins, register_type, dictSet])

/-- C9: the wildcard `any_type` value's `!=` comparison evaluates to False
against every object, because `AnyType.__ne__` returns False
unconditionally. -/
theorem c9_any_type_ne_false (x : PyObj) : pyNe any_type x = false := by
  cases x <;> rfl

/-- C10: `_verify_tensor` on a list argument reduces to verifying just the
first element with the `tensor_type` argument omitted (so the MASK range
check is never applied and later elements are never looked at): the result
on `a :: rest` equals the result on `a` with an empty tensor type for every
`rest`, an empty list passes, and concretely a MASK-typed list whose tensor
has an element 5 outside the unit interval still passes. -/
theorem c10_list_verification_shallow (vt : Bool) (a : PyV) (rest : List PyV)
    (nm tt : String) (p : TParams) :
    verify_tensor vt (.listV (a :: rest)) nm tt p = verify_tensor vt a nm "" p
  ∧ verify_tensor vt (.listV []) nm tt p = .ok ()
  ∧ verify_tensor true (.listV [.tensor ⟨[1, 1, 3], [5], "cpu"⟩]) nm "MASK"
      ⟨some [3], none, none⟩ = .ok () := by
  refine ⟨?_, ?_, rfl⟩
  · cases vt
    · rw [verify_tensor_vtoff, verify_tensor_vtoff]
    · rfl
  · cases vt
    · rw [verify_tensor_vtoff]
    · rfl

end ComfyAnnotations
